import Mathlib

/-!
Shallow embedding of hodor's reference-resolution layer
(`hodor/agent.py`: `detect_platform`, `parse_pr_url`;
`hodor/workspace.py`: `_detect_ci_workspace`, `_is_same_repo`,
`setup_workspace`, `_setup_github_workspace`, `_setup_gitlab_workspace`,
`cleanup_workspace`; and the cleanup step of `review_pr`).

Conventions:
 * Python strings are Lean `String`s (ASCII fragment of CPython semantics);
   `pathlib.Path` values are modelled as the raw path strings.
 * Python exceptions are `Except String`; an uncaught exception is `.error`.
 * External effects (environment variables, the filesystem, subprocess
   invocations) are explicit inputs (`Env`, `World`, `CleanupFs`), and
   every external command the code would run is recorded in a `List Cmd`
   trace returned alongside the result.
-/

namespace Hodor

/-! ## Character-list string utilities (CPython behaviour) -/

/-- Here `leadsWith pat l` is true iff `pat` is an initial run of `l`. -/
def leadsWith : List Char → List Char → Bool
  | [], _ => true
  | _ :: _, [] => false
  | a :: as, b :: bs => a = b && leadsWith as bs

/-- Substring test on character lists: Python's `pat in s`. -/
def containsSub (pat : List Char) : List Char → Bool
  | [] => leadsWith pat []
  | c :: rest => leadsWith pat (c :: rest) || containsSub pat rest

/-- Substring test on strings: Python's `pat in s`. -/
def strContains (pat s : String) : Bool :=
  containsSub pat.toList s.toList

/-- Python's `s.endswith(suf)`. -/
def strEndsWith (s suf : String) : Bool :=
  leadsWith suf.toList.reverse s.toList.reverse

/-- Characters up to (excluding) the first occurrence of `stop`. -/
def takeUntil (stop : Char) : List Char → List Char
  | [] => []
  | c :: rest => if c = stop then [] else c :: takeUntil stop rest

/-- The part of `l` after its last `'@'` (all of `l` when none): CPython's
`netloc.rpartition('@')[2]`. -/
def afterLastAt (l : List Char) : List Char :=
  (l.reverse.takeWhile (fun c => c ≠ '@')).reverse

/-! ## CPython `int()` on decimal string literals -/

/-- Python whitespace accepted by `int()` around the literal. -/
def pySpace (c : Char) : Bool :=
  c = ' ' || c = '\t' || c = '\n' || c = '\r' || c = '\x0b' || c = '\x0c'

/-- Digit accumulation with CPython's underscore rule: an underscore must
sit between two digits. -/
def pyDigitsCore : List Char → Nat → Option Nat
  | [], acc => some acc
  | c :: rest, acc =>
    if c.isDigit then pyDigitsCore rest (acc * 10 + (c.toNat - 48))
    else if c = '_' then
      match rest with
      | [] => none
      | d :: rest2 =>
        if d.isDigit then pyDigitsCore rest2 (acc * 10 + (d.toNat - 48))
        else none
    else none

/-- Parse a digit run that must start with a digit. -/
def pyDigits : List Char → Option Nat
  | [] => none
  | c :: rest => if c.isDigit then pyDigitsCore rest (c.toNat - 48) else none

/-- CPython `int(s)` on the ASCII fragment: optional surrounding
whitespace, one optional sign, then underscore-grouped decimal digits.
`none` models a raised `ValueError`. -/
def pyInt (s : String) : Option Int :=
  let l := ((s.toList.dropWhile pySpace).reverse.dropWhile pySpace).reverse
  match l with
  | '+' :: rest => (pyDigits rest).map Int.ofNat
  | '-' :: rest => (pyDigits rest).map (fun n => -(n : Int))
  | rest => (pyDigits rest).map Int.ofNat

/-! ## `urllib.parse.urlparse`, restricted to the pieces the code reads -/

/-- Characters allowed in a URL scheme after the initial letter. -/
def schemeChar (c : Char) : Bool :=
  c.isAlpha || c.isDigit || c = '+' || c = '-' || c = '.'

/-- Split at the first `':'`: CPython's `url.find(':')`. -/
def splitAtColon : List Char → Option (List Char × List Char)
  | [] => none
  | c :: rest =>
    if c = ':' then some ([], rest)
    else (splitAtColon rest).map (fun p => (c :: p.1, p.2))

/-- Drop a leading `scheme:` when the part before the colon is a
well-formed scheme (nonempty, letter first, scheme chars throughout). -/
def stripScheme (l : List Char) : List Char :=
  match splitAtColon l with
  | none => l
  | some (bef, aft) =>
    match bef with
    | [] => l
    | c :: cs => if c.isAlpha && (c :: cs).all schemeChar then aft else l

/-- Take the netloc (after `//`) up to the first `'/'`, `'?'` or `'#'`;
returns `(netloc, remainder)`. -/
def takeNetloc : List Char → List Char × List Char
  | [] => ([], [])
  | c :: rest =>
    if c = '/' || c = '?' || c = '#' then ([], c :: rest)
    else
      let p := takeNetloc rest
      (c :: p.1, p.2)

/-- After scheme removal: netloc (present only after a literal `//`) and
the raw remainder. -/
def splitNetlocRest (l : List Char) : List Char × List Char :=
  match l with
  | '/' :: '/' :: rest => takeNetloc rest
  | _ => ([], l)

/-- CPython `urlparse`'s params split: cut at the first `';'` of the last
`'/'`-segment (or of the whole string when there is no `'/'`). -/
def splitParams (l : List Char) : List Char :=
  if l.contains '/' then
    let seg := (l.reverse.takeWhile (fun c => c ≠ '/')).reverse
    l.take (l.length - seg.length) ++ takeUntil ';' seg
  else takeUntil ';' l

/-- The `(netloc, path)` pair of `urlparse(url)`: scheme stripped, netloc after
`//`, then fragment, query and params removed from the path. -/
def urlSplitCore (url : String) : List Char × List Char :=
  let l := stripScheme url.toList
  let p := splitNetlocRest l
  (p.1, splitParams (takeUntil '?' (takeUntil '#' p.2)))

/-- Model of `urlparse(url).netloc`. -/
def urlNetloc (url : String) : String :=
  String.mk (urlSplitCore url).1

/-- Model of `urlparse(url).hostname or ""`: netloc after the last `'@'`, before
the port colon, lowercased. -/
def urlHostname (url : String) : String :=
  String.mk ((takeUntil ':' (afterLastAt (urlSplitCore url).1)).map Char.toLower)

/-- Model of `urlparse(url).path`. -/
def urlPath (url : String) : String :=
  String.mk (urlSplitCore url).2

/-- Split on a separator character, accumulator-style: Python's
`s.split(sep)` for a one-character separator. -/
def splitOnCharAux (sep : Char) : List Char → List Char → List (List Char)
  | [], acc => [acc.reverse]
  | c :: rest, acc =>
    if c = sep then acc.reverse :: splitOnCharAux sep rest []
    else splitOnCharAux sep rest (c :: acc)

/-- Python's `s.split(sep)` for a one-character separator. -/
def splitOnChar (sep : Char) (s : String) : List String :=
  (splitOnCharAux sep s.toList []).map String.mk

/-- Model of `[p for p in parsed.path.split("/") if p]`. -/
def urlPathParts (url : String) : List String :=
  (splitOnChar '/' (urlPath url)).filter (fun p => p ≠ "")

/-! ## `hodor/agent.py`: `detect_platform` and `parse_pr_url` -/

/-- Model of `detect_platform` (agent.py:105): GitLab when the raw URL contains
the marker substring slash, dash, slash, `merge_requests`, slash, or the
hostname contains `"gitlab"`; else GitHub
when the raw URL contains `"/pull/"` or the hostname contains
`"github"`; else GitHub by default. -/
def detect_platform (pr_url : String) : String :=
  let hostname := urlHostname pr_url
  if strContains "/-/merge_requests/" pr_url || strContains "gitlab" hostname then
    "gitlab"
  else if strContains "/pull/" pr_url || strContains "github" hostname then
    "github"
  else
    "github"

/-- Index of the first occurrence (Python `list.index`); `l.length` when
absent (the callers guard with membership). -/
def listIndex (x : String) : List String → Nat
  | [] => 0
  | a :: rest => if a = x then 0 else listIndex x rest + 1

/-- The guard of `parse_pr_url`'s GitHub branch (agent.py:135):
`len(path_parts) >= 4 and path_parts[2] == "pull"`. -/
def githubShape (parts : List String) : Bool :=
  decide (4 ≤ parts.length) && decide (parts.getD 2 "" = "pull")

/-- The `elif`/`else` part of `parse_pr_url` (agent.py:141): the GitLab
`merge_requests` grammar, reached only when the GitHub guard failed. -/
def gitlabBranch (parts : List String) (host : String) :
    Except String (String × String × Int × String) :=
  if "merge_requests" ∈ parts then
    let mrIndex := listIndex "merge_requests" parts
    if mrIndex < 2 ∨ parts.length ≤ mrIndex + 1 then
      .error "Invalid GitLab MR URL format. Expected .../-/merge_requests/<number>"
    else if parts.getD (mrIndex - 1) "" ≠ "-" then
      .error "Invalid GitLab MR URL format. Missing /-/ segment before merge_requests."
    else
      let repo := parts.getD (mrIndex - 2) ""
      let ownerParts := parts.take (mrIndex - 2)
      let owner :=
        if ownerParts.isEmpty then parts.getD 0 ""
        else String.intercalate "/" ownerParts
      match pyInt (parts.getD (mrIndex + 1) "") with
      | some n => .ok (owner, repo, n, host)
      | none => .error "invalid literal for int() with base 10"
  else
    .error "Invalid PR/MR URL format. Expected GitHub pull request or GitLab merge request URL."

/-- Core of `parse_pr_url` (agent.py:121) on the already-split path
segments plus the netloc; `.error` models a raised `ValueError`. -/
def parsePathParts (parts : List String) (host : String) :
    Except String (String × String × Int × String) :=
  if githubShape parts then
    match pyInt (parts.getD 3 "") with
    | some n => .ok (parts.getD 0 "", parts.getD 1 "", n, host)
    | none => .error "invalid literal for int() with base 10"
  else
    gitlabBranch parts host

/-- Model of `parse_pr_url` (agent.py:121): returns `(owner, repo, number, host)`
or the raised `ValueError`. -/
def parse_pr_url (pr_url : String) : Except String (String × String × Int × String) :=
  parsePathParts (urlPathParts pr_url) (urlNetloc pr_url)

/-! ## `hodor/workspace.py`: effect model

Environment variables read by `_detect_ci_workspace` and
`_setup_gitlab_workspace` are an explicit `Env`; the outcomes of
filesystem probes and external commands are an explicit `World`; every
command the code would spawn is recorded in a `List Cmd` trace. -/

/-- The environment variables the workspace layer reads (`os.getenv`);
`none` is an unset variable. -/
structure Env where
  gitlabCI : Option String
  ciProjectDir : Option String
  ciProjectPath : Option String
  ciMrIid : Option String
  ciMrTargetBranch : Option String
  ciMrDiffBaseSha : Option String
  githubActions : Option String
  githubWorkspace : Option String
  githubRepository : Option String
  githubBaseRef : Option String
  gitlabHost : Option String

/-- Python truthiness of an optional string: `None` and `""` are falsy. -/
def truthy : Option String → Bool
  | none => false
  | some s => decide (s ≠ "")

/-- Python's short-circuit `a or b` on optional strings. -/
def pyOr (a b : Option String) : Option String :=
  if truthy a then a else b

/-- The external commands `workspace.py` can spawn, in the order the code
would run them. -/
inductive Cmd
  | gitRemoteGetUrl (cwd : String)
  | gitFetchOrigin (cwd : String)
  | ghVersion
  | ghRepoClone (slug dest : String)
  | ghPrCheckout (pr : String)
  | ghPrView (pr : String)
  | glabVersion
  | gitClone (url dest : String)
  | glabMrView (pr : String)
  | gitFetchAll
  | gitCheckoutNew (branch : String)
  | gitCheckoutPlain (branch : String)
  deriving DecidableEq, Repr

/-- The JSON fields `_setup_github_workspace` reads from
`gh pr view --json headRefName,baseRefName`. -/
structure PrView where
  headRefName : Option String
  baseRefName : Option String

/-- The fields `_setup_gitlab_workspace` reads from the MR metadata
returned by `fetch_gitlab_mr_info` (absent key modelled as `none`). -/
structure MrInfo where
  source_branch : Option String
  target_branch : Option String

/-- Outcomes of every external probe/command the workspace layer can run.
Functions of the working-directory string where the code passes one. -/
structure World where
  tempDir : String
  gitDirExists : String → Bool
  remoteGetUrl : String → Except String String
  gitFetchOriginOk : String → Bool
  ghAvailable : Bool
  ghCloneResult : Except String Unit
  ghPrCheckoutOk : Bool
  ghPrViewResult : Except String PrView
  glabAvailable : Bool
  gitCloneOk : Bool
  glabMrInfo : Except String MrInfo
  gitCheckoutNewOk : Bool
  gitCheckoutPlainOk : Bool

/-- Model of `_detect_ci_workspace` (workspace.py:26): GitLab CI first, then
GitHub Actions, else `(None, None, None)`. A GitLab CI branch that
matches returns the project directory, the target-branch variable and the
diff-base variable; the GitHub Actions branch returns the workspace
directory and base ref, never a diff base. -/
def _detect_ci_workspace (env : Env) (owner repo : String) :
    Option String × Option String × Option String :=
  let expected := owner ++ "/" ++ repo
  let gh :=
    if env.githubActions = some "true" then
      if truthy env.githubWorkspace && truthy env.githubRepository then
        if env.githubRepository = some expected then
          (env.githubWorkspace, env.githubBaseRef, (none : Option String))
        else (none, none, none)
      else (none, none, none)
    else (none, none, none)
  if env.gitlabCI = some "true" then
    if truthy env.ciProjectDir && truthy env.ciProjectPath then
      if env.ciProjectPath.getD "" = expected
          ∨ strEndsWith (env.ciProjectPath.getD "") ("/" ++ expected) = true then
        (env.ciProjectDir, env.ciMrTargetBranch, env.ciMrDiffBaseSha)
      else gh
    else gh
  else gh

/-- Model of `_is_same_repo` (workspace.py:73): false when `.git` is absent; else
run `git remote get-url origin` and test whether the remote URL contains
the substring `owner/repo` (false when the command fails). -/
def _is_same_repo (w : World) (workspace owner repo : String) : Bool × List Cmd :=
  if w.gitDirExists workspace then
    match w.remoteGetUrl workspace with
    | .ok url => (strContains (owner ++ "/" ++ repo) url, [Cmd.gitRemoteGetUrl workspace])
    | .error _ => (false, [Cmd.gitRemoteGetUrl workspace])
  else (false, [])

/-- The base-branch computation of `_setup_github_workspace`
(workspace.py:279-295): "main" by default, overwritten by the PR
metadata's baseRefName when the `gh pr view` query succeeds (query
failure is non-fatal and keeps the default). -/
def ghBaseBranch (w : World) : String :=
  match w.ghPrViewResult with
  | .error _ => "main"
  | .ok info => info.baseRefName.getD "main"

/-- Model of `_setup_github_workspace` (workspace.py:200): `gh version`, then an
unconditional `gh repo clone owner/repo workspace`, then
`gh pr checkout`, then the non-fatal base-branch metadata query. Returns
the base branch; the GITHUB_TOKEN check only logs. -/
def _setup_github_workspace (w : World) (workspace owner repo pr : String) :
    Except String String × List Cmd :=
  if w.ghAvailable then
    match w.ghCloneResult with
    | .error e =>
      (.error ("Failed to clone repository " ++ owner ++ "/" ++ repo ++ ": " ++ e),
       [Cmd.ghVersion, Cmd.ghRepoClone (owner ++ "/" ++ repo) workspace])
    | .ok _ =>
      if w.ghPrCheckoutOk then
        (.ok (ghBaseBranch w),
         [Cmd.ghVersion, Cmd.ghRepoClone (owner ++ "/" ++ repo) workspace,
          Cmd.ghPrCheckout pr, Cmd.ghPrView pr])
      else
        (.error ("Failed to checkout PR #" ++ pr),
         [Cmd.ghVersion, Cmd.ghRepoClone (owner ++ "/" ++ repo) workspace,
          Cmd.ghPrCheckout pr])
  else
    (.error "GitHub CLI (gh) is not available", [Cmd.ghVersion])

/-- Model of `_setup_gitlab_workspace` (workspace.py:304): resolve the host as
explicit host, else GITLAB_HOST, else "gitlab.com"; `glab version`; an
unconditional `git clone https://host/owner/repo.git workspace`; a fatal
MR metadata query; a best-effort `git fetch --all` (failure only warns);
checkout `-b source origin/source` falling back to a plain checkout.
Returns the MR target branch, "main" when the metadata has none. -/
def _setup_gitlab_workspace (w : World) (env : Env)
    (workspace owner repo pr : String) (host : Option String) :
    Except String String × List Cmd :=
  let gitlabHost := if truthy host then host.getD "" else env.gitlabHost.getD "gitlab.com"
  if w.glabAvailable then
    let cloneUrl := "https://" ++ gitlabHost ++ "/" ++ owner ++ "/" ++ repo ++ ".git"
    if w.gitCloneOk then
      match w.glabMrInfo with
      | .error e =>
        (.error ("Failed to fetch MR info for !" ++ pr ++ ": " ++ e),
         [Cmd.glabVersion, Cmd.gitClone cloneUrl workspace, Cmd.glabMrView pr])
      | .ok info =>
        if truthy info.source_branch then
          let src := info.source_branch.getD ""
          let tgt := (pyOr info.target_branch (some "main")).getD ""
          if w.gitCheckoutNewOk then
            (.ok tgt,
             [Cmd.glabVersion, Cmd.gitClone cloneUrl workspace, Cmd.glabMrView pr,
              Cmd.gitFetchAll, Cmd.gitCheckoutNew src])
          else if w.gitCheckoutPlainOk then
            (.ok tgt,
             [Cmd.glabVersion, Cmd.gitClone cloneUrl workspace, Cmd.glabMrView pr,
              Cmd.gitFetchAll, Cmd.gitCheckoutNew src, Cmd.gitCheckoutPlain src])
          else
            (.error ("Failed to checkout MR branch " ++ src),
             [Cmd.glabVersion, Cmd.gitClone cloneUrl workspace, Cmd.glabMrView pr,
              Cmd.gitFetchAll, Cmd.gitCheckoutNew src, Cmd.gitCheckoutPlain src])
        else
          (.error ("Could not determine source branch for MR !" ++ pr),
           [Cmd.glabVersion, Cmd.gitClone cloneUrl workspace, Cmd.glabMrView pr])
    else
      (.error "git clone failed", [Cmd.glabVersion, Cmd.gitClone cloneUrl workspace])
  else
    (.error "GitLab CLI (glab) is not available", [Cmd.glabVersion])

/-- The non-CI directory choice of `setup_workspace` (workspace.py:145):
a fresh temp directory when no explicit directory was supplied; else the
supplied directory, with a `git fetch origin` refresh when `reuse` holds
and `_is_same_repo` matches. Returns (directory, trace, fetch-failed). -/
def acquireDir (w : World) (owner repo : String)
    (workingDir : Option String) (reuse : Bool) : String × List Cmd × Bool :=
  match workingDir with
  | none => (w.tempDir, [], false)
  | some wd =>
    if reuse then
      let s := _is_same_repo w wd owner repo
      if s.1 then
        (wd, s.2 ++ [Cmd.gitFetchOrigin wd], !w.gitFetchOriginOk wd)
      else (wd, s.2, false)
    else (wd, [], false)

/-- Model of `setup_workspace`'s body before the final target-branch fallback
(workspace.py:136-177): adopt a CI workspace verbatim and skip all
cloning/checkout; otherwise pick the directory, then run the
platform-specific setup helper unconditionally, keeping the CI target
branch when one was detected (`is None` check). Returns
(workspace, detected target branch, diff base sha). -/
def setupCore (env : Env) (w : World) (platform owner repo pr : String)
    (host workingDir : Option String) (reuse : Bool) :
    Except String (String × Option String × Option String) × List Cmd :=
  let ci := _detect_ci_workspace env owner repo
  match ci.1 with
  | some wsPath => (.ok (wsPath, ci.2.1, ci.2.2), [])
  | none =>
    let a := acquireDir w owner repo workingDir reuse
    if a.2.2 = true then
      (.error "Command git fetch origin failed", a.2.1)
    else if platform = "github" then
      let r := _setup_github_workspace w a.1 owner repo pr
      (r.1.map (fun tb => (a.1, (if ci.2.1.isNone then some tb else ci.2.1), ci.2.2)),
       a.2.1 ++ r.2)
    else if platform = "gitlab" then
      let r := _setup_gitlab_workspace w env a.1 owner repo pr host
      (r.1.map (fun tb => (a.1, (if ci.2.1.isNone then some tb else ci.2.1), ci.2.2)),
       a.2.1 ++ r.2)
    else
      (.error ("Unsupported platform: " ++ platform), a.2.1)

/-- The final target-branch fallback of `setup_workspace`
(workspace.py:180): `detected_target_branch or base_branch or "main"`
with Python truthiness. -/
def finalBranch (detected base : Option String) : String :=
  (pyOr (pyOr detected base) (some "main")).getD ""

/-- Model of `setup_workspace` (workspace.py:107): run the body, wrap any raised
exception into a `WorkspaceError`, and apply the target-branch fallback
on success. Returns ((workspace, target branch, diff base sha) or the
error, trace of spawned commands). -/
def setup_workspace (env : Env) (w : World) (platform owner repo pr : String)
    (host base workingDir : Option String) (reuse : Bool) :
    Except String (String × String × Option String) × List Cmd :=
  match setupCore env w platform owner repo pr host workingDir reuse with
  | (.error e, tr) => (.error ("Failed to setup workspace: " ++ e), tr)
  | (.ok (ws, detected, sha), tr) => (.ok (ws, finalBranch detected base, sha), tr)

/-! ## `cleanup_workspace` and the cleanup step of `review_pr` -/

/-- Outcomes of the filesystem operations `cleanup_workspace` performs;
an `.error` is a raised OSError-style exception. -/
structure CleanupFs where
  existsResult : Except String Bool
  isDirResult : Except String Bool
  rmtreeResult : Except String Unit

/-- The `try` block of `cleanup_workspace` (workspace.py:461): exists
check, directory check, recursive removal; the returned Bool says whether
the directory was removed. -/
def cleanupBody (fs : CleanupFs) : Except String Bool := do
  let e ← fs.existsResult
  if e then do
    let d ← fs.isDirResult
    if d then do
      let _ ← fs.rmtreeResult
      pure true
    else pure false
  else pure false

/-- Model of `cleanup_workspace` (workspace.py:453): the body under a blanket
`except Exception` that only logs, so nothing propagates. -/
def cleanup_workspace (fs : CleanupFs) : Except String Bool :=
  match cleanupBody fs with
  | .ok b => .ok b
  | .error _ => .ok false

/-- The `finally` cleanup step of `review_pr` (agent.py:491):
`if workspace and cleanup: cleanup_workspace(workspace)`; there is no
check of whether the workspace was CI-provided. -/
def reviewCleanupStep (workspace : Option String) (cleanup : Bool)
    (fs : CleanupFs) : Except String Bool :=
  if workspace.isSome && cleanup then cleanup_workspace fs else .ok false

/-! ## Concrete fixtures used by witnesses and counterexamples -/

/-- An environment with every CI variable unset. -/
def envNoCI : Env :=
  { gitlabCI := none, ciProjectDir := none, ciProjectPath := none,
    ciMrIid := none, ciMrTargetBranch := none, ciMrDiffBaseSha := none,
    githubActions := none, githubWorkspace := none, githubRepository := none,
    githubBaseRef := none, gitlabHost := none }

/-- A matching GitLab CI environment for acme/widgets MR 42. -/
def envGitlabCI : Env :=
  { gitlabCI := some "true", ciProjectDir := some "/builds/acme/widgets",
    ciProjectPath := some "acme/widgets", ciMrIid := some "42",
    ciMrTargetBranch := some "develop", ciMrDiffBaseSha := some "abc123def",
    githubActions := none, githubWorkspace := none, githubRepository := none,
    githubBaseRef := none, gitlabHost := none }

/-- A world where every probe and command succeeds. -/
def worldAllOk : World :=
  { tempDir := "/tmp/hodor-review-x",
    gitDirExists := fun _ => true,
    remoteGetUrl := fun _ => .ok "https://github.com/acme/widgets.git",
    gitFetchOriginOk := fun _ => true,
    ghAvailable := true,
    ghCloneResult := .ok (),
    ghPrCheckoutOk := true,
    ghPrViewResult := .ok { headRefName := some "feature", baseRefName := some "develop" },
    glabAvailable := true,
    gitCloneOk := true,
    glabMrInfo := .ok { source_branch := some "feature", target_branch := some "develop" },
    gitCheckoutNewOk := true,
    gitCheckoutPlainOk := true }

/-- Like `worldAllOk` but the PR metadata query fails. -/
def worldViewFails : World :=
  { worldAllOk with ghPrViewResult := .error "gh pr view failed" }

/-- Like `worldAllOk` but cloning fails, as it does into a non-empty
directory. -/
def worldCloneFails : World :=
  { worldAllOk with
    ghCloneResult := .error "destination path /ws already exists and is not an empty directory" }

/-- A filesystem state where the workspace directory exists, is a
directory, and removal succeeds. -/
def fsDeletable : CleanupFs :=
  { existsResult := .ok true, isDirResult := .ok true, rmtreeResult := .ok () }

/-! ## Claim theorems: URL parsing and platform detection -/

/-- C4: URL parsing returns the documented canonical tuples — the GitHub
example yields `("acme", "widgets", 42, "github.com")` and is detected as
github; the nested-group GitLab example yields
`("team/sub", "widgets", 7, "gitlab.example.com")` and is detected as
gitlab. -/
theorem c4_parse_reference_canonical :
    parse_pr_url "https://github.com/acme/widgets/pull/42"
        = Except.ok ("acme", "widgets", 42, "github.com")
    ∧ detect_platform "https://github.com/acme/widgets/pull/42" = "github"
    ∧ parse_pr_url "https://gitlab.example.com/team/sub/widgets/-/merge_requests/7"
        = Except.ok ("team/sub", "widgets", 7, "gitlab.example.com")
    ∧ detect_platform "https://gitlab.example.com/team/sub/widgets/-/merge_requests/7"
        = "gitlab" :=
  ⟨rfl, rfl, rfl, rfl⟩

/-- C5 counterexample: a GitHub path with an extra trailing segment after
the number still parses successfully, while the claim says every shape
other than exactly four segments fails. -/
theorem c5_counterexample_trailing_segment :
    urlPathParts "https://github.com/acme/widgets/pull/42/files"
        = ["acme", "widgets", "pull", "42", "files"]
    ∧ parse_pr_url "https://github.com/acme/widgets/pull/42/files"
        = Except.ok ("acme", "widgets", 42, "github.com") :=
  ⟨rfl, rfl⟩

/-- C5 (amended): the GitHub branch fires exactly when the path has at
least four segments and the third literally equals "pull"; it then parses
the fourth segment as the number and ignores any trailing segments; every
other shape is handed to the GitLab merge_requests handling instead of
parsing as GitHub. -/
theorem c5_github_branch_exact :
    (∀ parts host n, githubShape parts = true →
        pyInt (parts.getD 3 "") = some n →
        parsePathParts parts host
          = Except.ok (parts.getD 0 "", parts.getD 1 "", n, host))
    ∧ (∀ parts host, githubShape parts = false →
        parsePathParts parts host = gitlabBranch parts host) := by
  constructor
  · intro parts host n hshape hint
    unfold parsePathParts
    rw [if_pos hshape, hint]
  · intro parts host hshape
    unfold parsePathParts
    rw [if_neg (by simp [hshape])]

/-- C5 witness: the amended theorem applied at the concrete
trailing-segment path. -/
theorem c5_github_branch_exact_witness :
    parsePathParts ["acme", "widgets", "pull", "42", "files"] "github.com"
      = Except.ok ("acme", "widgets", 42, "github.com") :=
  c5_github_branch_exact.1 ["acme", "widgets", "pull", "42", "files"] "github.com" 42
    (by decide) (by decide)

/-- C6 counterexample: this URL's path contains a merge_requests segment
whose immediately preceding segment is "4", not "-", yet parsing raises
nothing — the GitHub branch claims it first and returns a GitHub-style
parse, while the claim says such URLs raise and never fall back to GitHub
parsing. -/
theorem c6_counterexample_pull_shadows_merge_requests :
    urlPathParts "https://example.com/a/b/pull/4/merge_requests/7"
        = ["a", "b", "pull", "4", "merge_requests", "7"]
    ∧ parse_pr_url "https://example.com/a/b/pull/4/merge_requests/7"
        = Except.ok ("a", "b", 4, "example.com") :=
  ⟨rfl, rfl⟩

/-- C6 (amended): when the path contains a merge_requests segment whose
first occurrence is not preceded by a literal "-", and the path does not
satisfy the GitHub guard (at least four segments with the third equal to
"pull"), parsing raises a ValueError. -/
theorem c6_missing_dash_errors (url : String)
    (hmem : "merge_requests" ∈ urlPathParts url)
    (hdash : (urlPathParts url).getD
        (listIndex "merge_requests" (urlPathParts url) - 1) "" ≠ "-")
    (hshape : githubShape (urlPathParts url) = false) :
    ∃ e, parse_pr_url url = Except.error e := by
  simp only [parse_pr_url, parsePathParts, gitlabBranch]
  rw [if_neg (by simp [hshape]), if_pos hmem]
  by_cases h1 : listIndex "merge_requests" (urlPathParts url) < 2
      ∨ (urlPathParts url).length ≤ listIndex "merge_requests" (urlPathParts url) + 1
  · rw [if_pos h1]
    exact ⟨_, rfl⟩
  · rw [if_neg h1, if_pos hdash]
    exact ⟨_, rfl⟩

/-- C6 witness: the amended theorem applied at the claim's own example
URL. -/
theorem c6_missing_dash_errors_witness :
    ∃ e, parse_pr_url "https://example.com/team/widgets/merge_requests/7"
        = Except.error e :=
  c6_missing_dash_errors "https://example.com/team/widgets/merge_requests/7"
    (by decide) (by decide) (by decide)

/-- C8 counterexample: the path of this URL contains a merge_requests
segment, but detection classifies it as github, while the claim says any
URL whose path contains a merge_requests segment is classified GitLab. -/
theorem c8_counterexample_bare_merge_requests :
    (urlPathParts "https://example.com/team/widgets/merge_requests/7").contains
        "merge_requests" = true
    ∧ detect_platform "https://example.com/team/widgets/merge_requests/7"
        = "github" :=
  ⟨rfl, rfl⟩

/-- C8 (amended): detection classifies a URL as gitlab exactly when the
raw URL contains the slash, dash, slash, merge_requests, slash marker
substring or the hostname contains "gitlab"; every other URL yields
"github" (whether or not the GitHub check matches), so detection is total
and never raises. -/
theorem c8_detect_platform_characterization (url : String) :
    (detect_platform url = "gitlab"
      ↔ (strContains "/-/merge_requests/" url = true
          ∨ strContains "gitlab" (urlHostname url) = true))
    ∧ (¬ (strContains "/-/merge_requests/" url = true
          ∨ strContains "gitlab" (urlHostname url) = true) →
        detect_platform url = "github") := by
  simp only [detect_platform]
  by_cases hgl : (strContains "/-/merge_requests/" url
      || strContains "gitlab" (urlHostname url)) = true
  · have hd : strContains "/-/merge_requests/" url = true
        ∨ strContains "gitlab" (urlHostname url) = true := by
      cases h1 : strContains "/-/merge_requests/" url
      · cases h2 : strContains "gitlab" (urlHostname url)
        · rw [h1, h2] at hgl
          exact absurd hgl (by decide)
        · exact Or.inr rfl
      · exact Or.inl rfl
    rw [if_pos hgl]
    exact ⟨⟨fun _ => hd, fun _ => rfl⟩, fun hn => absurd hd hn⟩
  · have hd : ¬ (strContains "/-/merge_requests/" url = true
        ∨ strContains "gitlab" (urlHostname url) = true) := by
      intro h
      apply hgl
      rcases h with h | h <;> simp [h]
    rw [if_neg hgl]
    have hcollapse : (if (strContains "/pull/" url
        || strContains "github" (urlHostname url)) = true
        then "github" else "github") = "github" := by
      by_cases h2 : (strContains "/pull/" url
          || strContains "github" (urlHostname url)) = true
      · rw [if_pos h2]
      · rw [if_neg h2]
    rw [hcollapse]
    exact ⟨⟨fun heq => absurd heq (by decide), fun hin => absurd hin hd⟩,
      fun _ => rfl⟩

/-- C8 witness: the characterization applied at a URL matching neither
rule, giving the github default. -/
theorem c8_detect_platform_characterization_witness :
    detect_platform "https://example.org/a/b" = "github" :=
  (c8_detect_platform_characterization "https://example.org/a/b").2 (by decide)

/-- C10: a GitLab path with exactly one segment before the "-" separator
parses successfully, and the owner equals the repo name, because the
owner falls back to the first path segment when no segments precede the
repo; instantiated at the concrete example URL. -/
theorem c10_single_segment_owner_eq_repo :
    (∀ x s host n, x ≠ "merge_requests" → pyInt s = some n →
        parsePathParts [x, "-", "merge_requests", s] host
          = Except.ok (x, x, n, host))
    ∧ parse_pr_url "https://gitlab.com/x/-/merge_requests/5"
        = Except.ok ("x", "x", 5, "gitlab.com") := by
  constructor
  · intro x s host n hx hs
    have hshape : githubShape [x, "-", "merge_requests", s] = false := by
      simp [githubShape]
    have hidx : listIndex "merge_requests" [x, "-", "merge_requests", s] = 2 := by
      simp [listIndex, hx]
    simp only [parsePathParts, gitlabBranch]
    rw [if_neg (by simp [hshape]), if_pos (by simp), hidx]
    rw [if_neg (by simp)]
    rw [if_neg (by simp)]
    simp [hs]
  · rfl

/-- C10 witness: the general statement applied at the example's own
segments. -/
theorem c10_single_segment_owner_eq_repo_witness :
    parsePathParts ["x", "-", "merge_requests", "5"] "gitlab.com"
      = Except.ok ("x", "x", 5, "gitlab.com") :=
  c10_single_segment_owner_eq_repo.1 "x" "5" "gitlab.com" 5 (by decide) (by decide)

/-! ## Helper lemmas about the workspace model -/

/-- The target-branch fallback chain never yields the empty string. -/
theorem finalBranch_ne_empty (d b : Option String) : finalBranch d b ≠ "" := by
  unfold finalBranch pyOr
  by_cases hd : truthy d = true
  · rw [if_pos hd, if_pos hd]
    cases d with
    | none => exact absurd hd (by decide)
    | some s =>
      have : s ≠ "" := of_decide_eq_true hd
      simpa using this
  · rw [if_neg hd]
    by_cases hb : truthy b = true
    · rw [if_pos hb]
      cases b with
      | none => exact absurd hb (by decide)
      | some s =>
        have : s ≠ "" := of_decide_eq_true hb
        simpa using this
    · rw [if_neg hb]
      decide

/-- A successful `setup_workspace` is a successful `setupCore` with the
fallback chain applied to the detected branch. -/
theorem setup_workspace_ok (env : Env) (w : World) (platform owner repo pr : String)
    (host base workingDir : Option String) (reuse : Bool) (p tb : String)
    (sha : Option String)
    (h : (setup_workspace env w platform owner repo pr host base workingDir reuse).1
        = Except.ok (p, tb, sha)) :
    ∃ d, (setupCore env w platform owner repo pr host workingDir reuse).1
        = Except.ok (p, d, sha) ∧ tb = finalBranch d base := by
  unfold setup_workspace at h
  rcases hsc : setupCore env w platform owner repo pr host workingDir reuse with ⟨res, tr⟩
  rw [hsc] at h
  cases res with
  | error e => exact absurd h (by simp)
  | ok v =>
    obtain ⟨ws0, d0, sha0⟩ := v
    simp only [Except.ok.injEq, Prod.mk.injEq] at h
    obtain ⟨h1, h2, h3⟩ := h
    subst h1
    subst h3
    exact ⟨d0, by simp [hsc], h2.symm⟩

/-- A matching GitLab CI environment makes the detector return the
project directory, target-branch variable and diff-base variable. -/
theorem detect_gitlab_ci_match (env : Env) (owner repo : String)
    (h1 : env.gitlabCI = some "true")
    (h2 : truthy env.ciProjectDir = true)
    (h3 : truthy env.ciProjectPath = true)
    (h4 : env.ciProjectPath.getD "" = owner ++ "/" ++ repo
        ∨ strEndsWith (env.ciProjectPath.getD "") ("/" ++ (owner ++ "/" ++ repo)) = true) :
    _detect_ci_workspace env owner repo
      = (env.ciProjectDir, env.ciMrTargetBranch, env.ciMrDiffBaseSha) := by
  simp only [_detect_ci_workspace]
  rw [if_pos h1, if_pos (by simp [h2, h3]), if_pos h4]

/-- When the GitHub metadata query fails or carries no baseRefName, a
successful GitHub setup helper returns the "main" default. -/
theorem github_helper_base_main (w : World) (ws owner repo pr : String)
    (hmeta : ∀ i, w.ghPrViewResult = Except.ok i → i.baseRefName = none)
    (tb : String)
    (h : (_setup_github_workspace w ws owner repo pr).1 = Except.ok tb) :
    tb = "main" := by
  have hbase : ghBaseBranch w = "main" := by
    unfold ghBaseBranch
    cases hv : w.ghPrViewResult with
    | error e => rfl
    | ok i => simp [hmeta i hv]
  unfold _setup_github_workspace at h
  by_cases hgh : w.ghAvailable = true
  · rw [if_pos hgh] at h
    cases hcl : w.ghCloneResult with
    | error e =>
      rw [hcl] at h
      exact absurd h (by simp)
    | ok u =>
      rw [hcl] at h
      by_cases hco : w.ghPrCheckoutOk = true
      · rw [if_pos hco] at h
        simp only at h
        rw [hbase] at h
        injection h with h2
        exact h2.symm
      · rw [if_neg hco] at h
        exact absurd h (by simp)
  · rw [if_neg hgh] at h
    exact absurd h (by simp)

/-! ## Claim theorems: workspace acquisition and cleanup -/

/-- C1 (code bug shown): on the reuse path — explicit persistent
directory, reuse requested, `.git` present, origin remote containing
owner/repo — the code runs the `git fetch origin` refresh but then still
calls the platform setup helper, which unconditionally invokes
`gh repo clone` into the populated directory; with the clone failing (as
it does against a non-empty directory) the acquisition fails, against
the claim that no clone is invoked and the acquisition succeeds. -/
theorem c1_reuse_path_still_clones :
    (setup_workspace envNoCI worldCloneFails "github" "acme" "widgets" "42"
        none none (some "/ws") true).2
      = [Cmd.gitRemoteGetUrl "/ws", Cmd.gitFetchOrigin "/ws", Cmd.ghVersion,
         Cmd.ghRepoClone "acme/widgets" "/ws"]
    ∧ ∃ e, (setup_workspace envNoCI worldCloneFails "github" "acme" "widgets" "42"
        none none (some "/ws") true).1 = Except.error e :=
  ⟨rfl, ⟨_, rfl⟩⟩

/-- C2 (code bug shown): at the failing input — a matching GitLab CI
environment whose project directory `setup_workspace` adopted, with
deletion requested — the cleanup step of `review_pr` removes the
CI-managed directory: no CI check exists anywhere on the cleanup path,
against the claim that a CI-provided directory is never deleted. -/
theorem c2_ci_directory_deleted_on_cleanup :
    (setup_workspace envGitlabCI worldAllOk "gitlab" "acme" "widgets" "42"
        none none none true).1
      = Except.ok ("/builds/acme/widgets", "develop", some "abc123def")
    ∧ reviewCleanupStep (some "/builds/acme/widgets") true fsDeletable
      = Except.ok true :=
  ⟨rfl, rfl⟩

/-- C3: whenever the GitLab CI detection matches (CI marker "true",
truthy project directory and project path, project path equal to
or ending in "owner/repo"), `setup_workspace` spawns no external command
at all — in particular no clone and no checkout — and returns the
CI-provided project directory verbatim as the workspace path. -/
theorem c3_gitlab_ci_adopts_directory (env : Env) (w : World)
    (platform owner repo pr : String) (host base workingDir : Option String)
    (reuse : Bool)
    (h1 : env.gitlabCI = some "true")
    (h2 : truthy env.ciProjectDir = true)
    (h3 : truthy env.ciProjectPath = true)
    (h4 : env.ciProjectPath.getD "" = owner ++ "/" ++ repo
        ∨ strEndsWith (env.ciProjectPath.getD "") ("/" ++ (owner ++ "/" ++ repo)) = true) :
    (setup_workspace env w platform owner repo pr host base workingDir reuse).2 = []
    ∧ ∃ tb sha,
        (setup_workspace env w platform owner repo pr host base workingDir reuse).1
          = Except.ok (env.ciProjectDir.getD "", tb, sha) := by
  obtain ⟨d, hd⟩ : ∃ d, env.ciProjectDir = some d := by
    cases h : env.ciProjectDir with
    | none => rw [h] at h2; exact absurd h2 (by decide)
    | some d => exact ⟨d, rfl⟩
  have hdet := detect_gitlab_ci_match env owner repo h1 h2 h3 h4
  rw [hd] at hdet
  simp only [setup_workspace, setupCore, hdet, hd]
  exact ⟨by simp, finalBranch env.ciMrTargetBranch base, env.ciMrDiffBaseSha, by simp⟩

/-- C3 witness: the theorem applied to the concrete GitLab CI fixture. -/
theorem c3_gitlab_ci_adopts_directory_witness :
    (setup_workspace envGitlabCI worldAllOk "gitlab" "acme" "widgets" "42"
        none none none true).2 = []
    ∧ ∃ tb sha,
        (setup_workspace envGitlabCI worldAllOk "gitlab" "acme" "widgets" "42"
            none none none true).1
          = Except.ok (envGitlabCI.ciProjectDir.getD "", tb, sha) :=
  c3_gitlab_ci_adopts_directory envGitlabCI worldAllOk "gitlab" "acme" "widgets" "42"
    none none none true (by decide) (by decide) (by decide) (Or.inl (by decide))

/-- C7: the target-branch fallback chain — when CI detection supplies
nothing, the GitHub metadata query fails to supply a baseRefName, and no
explicit default is given, the returned target branch is the literal
"main"; and every successful invocation, on any platform against any
world, returns a non-empty target branch. -/
theorem c7_target_branch_fallback :
    (∀ env w owner repo pr host workingDir reuse p tb sha,
        _detect_ci_workspace env owner repo = (none, none, none) →
        (∀ i, w.ghPrViewResult = Except.ok i → i.baseRefName = none) →
        (setup_workspace env w "github" owner repo pr host none workingDir reuse).1
          = Except.ok (p, tb, sha) →
        tb = "main")
    ∧ (∀ env w platform owner repo pr host base workingDir reuse p tb sha,
        (setup_workspace env w platform owner repo pr host base workingDir reuse).1
          = Except.ok (p, tb, sha) →
        tb ≠ "") := by
  constructor
  · intro env w owner repo pr host workingDir reuse p tb sha hdet hmeta h
    obtain ⟨d, hcore, htb⟩ := setup_workspace_ok env w "github" owner repo pr
      host none workingDir reuse p tb sha h
    simp only [setupCore, hdet] at hcore
    by_cases haf : (acquireDir w owner repo workingDir reuse).2.2 = true
    · rw [if_pos haf] at hcore
      exact absurd hcore (by simp)
    · rw [if_neg haf, if_true] at hcore
      cases hr : (_setup_github_workspace w
          (acquireDir w owner repo workingDir reuse).1 owner repo pr).1 with
      | error e =>
        rw [hr] at hcore
        exact absurd hcore (by simp [Except.map])
      | ok tb' =>
        rw [hr] at hcore
        simp only [Except.map, Except.ok.injEq, Prod.mk.injEq, Option.isNone_none,
          if_true] at hcore
        have h1 := github_helper_base_main w
          (acquireDir w owner repo workingDir reuse).1 owner repo pr hmeta tb' hr
        rw [htb, ← hcore.2.1, h1]
        rfl
  · intro env w platform owner repo pr host base workingDir reuse p tb sha h
    obtain ⟨d, _, htb⟩ := setup_workspace_ok env w platform owner repo pr
      host base workingDir reuse p tb sha h
    rw [htb]
    exact finalBranch_ne_empty d base

/-- C7 witness: both parts applied at a concrete non-CI GitHub run whose
metadata query fails, which indeed resolves to "main". -/
theorem c7_target_branch_fallback_witness :
    (setup_workspace envNoCI worldViewFails "github" "acme" "widgets" "42"
        none none none false).1
      = Except.ok ("/tmp/hodor-review-x", "main", none)
    ∧ "main" = "main" ∧ "main" ≠ "" := by
  have hres : (setup_workspace envNoCI worldViewFails "github" "acme" "widgets" "42"
      none none none false).1
      = Except.ok ("/tmp/hodor-review-x", "main", none) := rfl
  refine ⟨hres, ?_, ?_⟩
  · refine c7_target_branch_fallback.1 envNoCI worldViewFails "acme" "widgets" "42"
      none none false "/tmp/hodor-review-x" "main" none (by decide) ?_ hres
    intro i hi
    simp [worldViewFails] at hi
  · exact c7_target_branch_fallback.2 envNoCI worldViewFails "github" "acme" "widgets"
      "42" none none none false "/tmp/hodor-review-x" "main" none hres

/-- C9: the cleanup step never raises — for every filesystem outcome,
including a failing existence probe, a failing directory probe, a missing
directory and a failing removal, `cleanup_workspace` returns normally
(the blanket except clause only logs). -/
theorem c9_cleanup_never_raises (fs : CleanupFs) :
    ∃ b, cleanup_workspace fs = Except.ok b := by
  unfold cleanup_workspace
  cases h : cleanupBody fs with
  | error e => exact ⟨false, rfl⟩
  | ok b => exact ⟨b, rfl⟩

end Hodor
